import Mathlib

/-!
Verification of the Shopify-to-BigQuery pipeline (shallow embedding).

Source files embedded here:
  - `load_to_bigquery.py` (`BigQueryLoader`): `clean_column_names`,
    `get_last_updated_timestamp`, `load_dataframe`, `load_from_csv`,
    `load_all_datasets`;
  - `utils.py`: `get_incremental_timestamps`;
  - `extract_shopify_data.py` (`ShopifyExtractor`): the keyword signature of
    `extract_all`, the per-resource fetch parameters, `save_to_csv`;
  - `pipeline.py` (`ShopifyBigQueryPipeline`): `run_extraction`, `run_loading`,
    `run_full_pipeline`.

Modelling conventions:
  - Python `str` column names are lists of Unicode code points (`PyStr`),
    so 95 is the underscore, 48..57 the digits, 65..90 upper-case ASCII
    letters, 97..122 lower-case ASCII letters.
  - A Python function that can raise is embedded returning `Option`/`Except`;
    `none` / `.error` is the raised exception.
  - `pandas.DataFrame` is abstracted to its column-name list and its row
    count; `df.empty` is true when either axis has length 0.
  - External effects (BigQuery queries, HTTP fetches, the file system) are
    parameters of the embedded functions: a query outcome ADT, a
    resource-indexed file-system environment, a boolean load-job outcome.
-/

namespace ShopifyBQ

/-- A Python string as its list of Unicode code points. -/
abbrev PyStr := List Nat

/-- Membership in the regex class `[a-zA-Z0-9_]` of
`clean_column_names`: the characters NOT replaced by an underscore. -/
def isWordCode (n : Nat) : Bool :=
  (65 ≤ n && n ≤ 90) || (97 ≤ n && n ≤ 122) || (48 ≤ n && n ≤ 57) || (n == 95)

/-- ASCII alphanumeric code (a word code other than the underscore). -/
def isAlnumCode (n : Nat) : Bool :=
  (65 ≤ n && n ≤ 90) || (97 ≤ n && n ≤ 122) || (48 ≤ n && n ≤ 57)

/-- Python `str.isdigit` restricted to the ASCII range produced by the
sanitizer. -/
def isDigitCode (n : Nat) : Bool := 48 ≤ n && n ≤ 57

/-- Code points that may appear in a sanitized name: `[a-z0-9_]`. -/
def isLowerWordCode (n : Nat) : Bool :=
  (97 ≤ n && n ≤ 122) || (48 ≤ n && n ≤ 57) || (n == 95)

/-- Python `str.lower` on one code point (only ASCII letters occur after
sanitization, where `lower` maps 65..90 to 97..122 and fixes the rest). -/
def lowerCode (n : Nat) : Nat := if 65 ≤ n && n ≤ 90 then n + 32 else n

/-- The predicate stripped by `.str.strip("_")`: the code point is `_`. -/
def isUnd (n : Nat) : Bool := n == 95

/-- Line 66 of `load_to_bigquery.py`:
`.str.replace(r"[^a-zA-Z0-9_]", "_", regex=True)`. -/
def replaceInvalid (s : PyStr) : PyStr :=
  s.map (fun n => if isWordCode n then n else 95)

/-- Line 67 of `load_to_bigquery.py`: `.str.strip("_")`, removing leading and
trailing underscores. -/
def stripUnderscores (s : PyStr) : PyStr :=
  ((s.dropWhile isUnd).reverse.dropWhile isUnd).reverse

/-- Line 68 of `load_to_bigquery.py`: `.str.lower()`. -/
def lowerStr (s : PyStr) : PyStr := s.map lowerCode

/-- Lines 64-75 of `load_to_bigquery.py` applied to one column name:
replace invalid characters, strip underscores, lowercase, then
`f"_{col}" if col[0].isdigit() else col`.  Indexing `col[0]` on an empty
string raises `IndexError`, embedded as `none`. -/
def sanitizeName (s : PyStr) : Option PyStr :=
  match lowerStr (stripUnderscores (replaceInvalid s)) with
  | [] => none
  | c :: r => some (if isDigitCode c then 95 :: c :: r else c :: r)

/-- `BigQueryLoader.clean_column_names` on the list of column names of the
DataFrame.  The list comprehension on lines 72-75 evaluates `col[0]` for every
column, so any name that sanitizes to the empty string raises and the whole
call fails (`none`). -/
def clean_column_names : List PyStr → Option (List PyStr)
  | [] => some []
  | s :: rest =>
    match sanitizeName s, clean_column_names rest with
    | some m, some ms => some (m :: ms)
    | _, _ => none

/-- A sanitized name the warehouse accepts: non-empty, only `[a-z0-9_]`
code points, and not starting with a digit. -/
def validIdent (s : PyStr) : Bool :=
  match s with
  | [] => false
  | c :: _ => !isDigitCode c && s.all isLowerWordCode

/-- A DataFrame abstracted to its column names and row count. -/
structure DF where
  cols : List PyStr
  nrows : Nat
deriving DecidableEq

/-- Pandas `df.empty`: true when the frame has no rows or no columns. -/
def DF.isEmptyDF (df : DF) : Bool := df.nrows == 0 || df.cols.isEmpty

/-- The three resources of `Config.TABLE_MAPPING` (`orders`, `customers`,
`products`); the csv-name/table-name strings are abstracted to this enum. -/
inductive Resource where
  | orders
  | customers
  | products
deriving DecidableEq

/-- The key sequence of `Config.TABLE_MAPPING`, in dict order. -/
def TABLE_MAPPING : List Resource := [.orders, .customers, .products]

/-- Outcome of the warehouse interaction inside
`BigQueryLoader.get_last_updated_timestamp`: the table is absent
(`google.api_core.exceptions.NotFound`), some query step raised
(the broad `except Exception`), the `MAX` row is missing or null, or the
stored maximum is a string or a datetime value (timestamps as integer
seconds). -/
inductive MaxQueryResult where
  | tableNotFound
  | queryError
  | nullMax
  | strVal (s : String)
  | dtVal (t : Int)

/-- `BigQueryLoader.get_last_updated_timestamp` (lines 79-125 of
`load_to_bigquery.py`).  `fromiso` embeds `datetime.fromisoformat`
(`none` = `ValueError`) and `isoStr` embeds `datetime.isoformat`; the
`timedelta(seconds=1)` offset is `+ 1` on integer seconds.  A string
maximum that does not parse is returned as-is, without the offset. -/
def get_last_updated_timestamp (fromiso : String → Option Int)
    (isoStr : Int → String) : MaxQueryResult → Option String
  | .tableNotFound => none
  | .queryError => none
  | .nullMax => none
  | .strVal s =>
    match fromiso s with
    | none => some s
    | some dt => some (isoStr (dt + 1))
  | .dtVal dt => some (isoStr (dt + 1))

/-- `get_incremental_timestamps` of `utils.py`: one lookup per
`TABLE_MAPPING` entry, keeping the result only under Python truthiness
(`if timestamp:` drops both `None` and the empty string). -/
def get_incremental_timestamps (lookup : Resource → Option String) :
    List (Resource × String) :=
  TABLE_MAPPING.filterMap (fun r =>
    match lookup r with
    | none => none
    | some t => if t = "" then none else some (r, t))

/-- A raised Python exception relevant to the call protocol. -/
inductive PyError where
  | typeError
deriving DecidableEq

/-- The keyword parameter names of `ShopifyExtractor.extract_all`: its
definition on line 149 of `extract_shopify_data.py` is
`def extract_all(self):`, so there are none besides `self`. -/
def extractAllParamNames : List String := []

/-- Python call semantics for `extractor.extract_all(**kwargs)`: a keyword
argument whose name is not a parameter of the callee raises `TypeError`. -/
def callExtractAll (kwargNames : List String) : Except PyError Unit :=
  if kwargNames.all (fun k => extractAllParamNames.contains k) then
    Except.ok ()
  else
    Except.error PyError.typeError

/-- Query parameters of `fetch_paginated_data` when `params=None` (line 75 of
`extract_shopify_data.py`): `{"limit": 250}`. -/
def fetch_default_params : List (String × Nat) := [("limit", 250)]

/-- Query parameters sent by `extract_orders` (lines 135-139):
`{"limit": 250}` and nothing else. -/
def extract_orders_params : List (String × Nat) := [("limit", 250)]

/-- The query parameters of the per-resource fetch requests:
`extract_orders` passes its explicit params, `extract_customers` and
`extract_products` pass none, so the default applies. -/
def extract_params : Resource → List (String × Nat)
  | .orders => extract_orders_params
  | .customers => fetch_default_params
  | .products => fetch_default_params

/-- `ShopifyExtractor.save_to_csv` (lines 170-203): iterate the datasets
dict in `TABLE_MAPPING` order, skip every empty DataFrame (`continue`),
write the rest and collect the saved paths, returned here as the list of
resources whose file was written. -/
def save_to_csv (datasets : Resource → DF) : List Resource :=
  TABLE_MAPPING.filter (fun r => !(datasets r).isEmptyDF)

/-- Result of `BigQueryLoader.load_dataframe`: whether a load job was
submitted to the warehouse and the boolean the function returns. -/
structure LoadOutcome where
  invoked : Bool
  success : Bool
deriving DecidableEq

/-- `BigQueryLoader.load_dataframe` (lines 127-162).  An empty DataFrame is
skipped with `return False` before any job is created; the `try` block
first sanitizes the columns (an `IndexError` there is caught by the broad
`except` and also yields `False`); otherwise a load job runs and its
outcome `jobOk` is returned. -/
def load_dataframe (df : DF) (jobOk : Bool) : LoadOutcome :=
  if df.isEmptyDF then ⟨false, false⟩
  else
    match clean_column_names df.cols with
    | none => ⟨false, false⟩
    | some _ => ⟨true, jobOk⟩

/-- Result of `BigQueryLoader.load_from_csv`: the returned boolean and
whether the csv file still exists afterwards. -/
structure CsvLoadResult where
  success : Bool
  fileRemains : Bool
deriving DecidableEq

/-- `BigQueryLoader.load_from_csv` (lines 164-185).  A missing file returns
`False`; a `pd.read_csv` failure (`readResult = none`) is caught and returns
`False` with the file kept; otherwise the file is deleted exactly when
`load_dataframe` succeeded. -/
def load_from_csv (fileExists : Bool) (readResult : Option DF)
    (jobOk : Bool) : CsvLoadResult :=
  if !fileExists then ⟨false, false⟩
  else
    match readResult with
    | none => ⟨false, true⟩
    | some df =>
      if (load_dataframe df jobOk).success then ⟨true, false⟩
      else ⟨false, true⟩

/-- The staging directory seen by the loader: for each resource, `none`
when its csv file does not exist, otherwise the outcome of reading it and
the outcome its load job would have. -/
abbrev LoadEnv := Resource → Option (Option DF × Bool)

/-- `BigQueryLoader.load_all_datasets` (lines 187-219): iterate the whole
`TABLE_MAPPING`, `continue` past resources with no csv file, record one
boolean per attempted resource; no failure stops the loop. -/
def load_all_datasets (env : LoadEnv) : List (Resource × Bool) :=
  TABLE_MAPPING.filterMap (fun r =>
    match env r with
    | none => none
    | some v => some (r, (load_from_csv true v.1 v.2).success))

/-- `ShopifyBigQueryPipeline.run_loading` (lines 51-80 of `pipeline.py`):
return `True` straight away when the extraction phase reported zero saved
files; a `BigQueryLoader()` construction failure is caught and returns
`False`; otherwise empty results return `True` and non-empty results
return the conjunction `all(results.values())`. -/
def run_loading (extracted_files : Option (List Resource))
    (loaderInitOk : Bool) (env : LoadEnv) : Bool :=
  match extracted_files with
  | some [] => true
  | _ =>
    if !loaderInitOk then false
    else (load_all_datasets env).all (fun x => x.2)

/-- `ShopifyBigQueryPipeline.run_extraction` (lines 22-49 of `pipeline.py`),
whole body inside `try`: construct the loader (`BigQueryLoader.__init__`
re-raises its failures, so `loaderInitOk = false` lands in the `except`
and returns `(False, [])`); compute the incremental timestamps; then call
`self.extractor.extract_all(last_updated_timestamps=last_timestamps)` —
whose keyword must be accepted by `extract_all` for the run to proceed to
`save_to_csv`. -/
def run_extraction (loaderInitOk : Bool) (fromiso : String → Option Int)
    (isoStr : Int → String) (queryRes : Resource → MaxQueryResult)
    (fetched : Resource → DF) : Bool × List Resource :=
  if !loaderInitOk then (false, [])
  else
    let _ts := get_incremental_timestamps (fun r =>
      get_last_updated_timestamp fromiso isoStr (queryRes r))
    match callExtractAll ["last_updated_timestamps"] with
    | Except.error _ => (false, [])
    | Except.ok _ => (true, save_to_csv fetched)

/-- `ShopifyBigQueryPipeline.run_full_pipeline` (lines 82-105 of
`pipeline.py`): run the extraction phase, stop with failure when it fails,
otherwise run the loading phase on the saved-file list. -/
def run_full_pipeline (loaderInitOk : Bool) (fromiso : String → Option Int)
    (isoStr : Int → String) (queryRes : Resource → MaxQueryResult)
    (fetched : Resource → DF) (env : LoadEnv) : Bool :=
  let res := run_extraction loaderInitOk fromiso isoStr queryRes fetched
  if !res.1 then false
  else run_loading (some res.2) loaderInitOk env

/-- The staging directory produced by a `save_to_csv` run: a resource has a
csv file exactly when `save_to_csv` wrote one, its content reads back as the
staged DataFrame, and its load job has the given outcome. -/
def stagedEnv (datasets : Resource → DF) (jobOk : Resource → Bool) : LoadEnv :=
  fun r =>
    if r ∈ save_to_csv datasets then some (some (datasets r), jobOk r) else none

/-- A staging directory holding a single `orders` csv whose content reads
back as a zero-row DataFrame with one column. -/
def emptyOrdersEnv : LoadEnv :=
  fun r =>
    match r with
    | .orders => some (some ⟨[[97]], 0⟩, true)
    | .customers => none
    | .products => none

/-! Helper facts about the code-point classes. -/

theorem word_of_alnum {n : Nat} (h : isAlnumCode n = true) : isWordCode n = true := by
  simp only [isAlnumCode, isWordCode, Bool.or_eq_true, Bool.and_eq_true,
    decide_eq_true_eq, beq_iff_eq] at h ⊢
  omega

theorem und_false_of_alnum {n : Nat} (h : isAlnumCode n = true) : isUnd n = false := by
  simp only [isAlnumCode, Bool.or_eq_true, Bool.and_eq_true,
    decide_eq_true_eq, beq_iff_eq] at h
  have hne : n ≠ 95 := by omega
  simp [isUnd, hne]

theorem word_of_lowerWord {n : Nat} (h : isLowerWordCode n = true) : isWordCode n = true := by
  simp only [isLowerWordCode, isWordCode, Bool.or_eq_true, Bool.and_eq_true,
    decide_eq_true_eq, beq_iff_eq] at h ⊢
  omega

theorem lowerWord_of_word {n : Nat} (h : isWordCode n = true) :
    isLowerWordCode (lowerCode n) = true := by
  simp only [isWordCode, isLowerWordCode, lowerCode, Bool.or_eq_true, Bool.and_eq_true,
    decide_eq_true_eq, beq_iff_eq] at h ⊢
  split <;> rename_i hc
  · omega
  · rw [not_and_or, not_le, not_le] at hc
    omega

theorem lowerCode_fix {n : Nat} (h : isLowerWordCode n = true) : lowerCode n = n := by
  simp only [isLowerWordCode, Bool.or_eq_true, Bool.and_eq_true,
    decide_eq_true_eq, beq_iff_eq] at h
  simp only [lowerCode]
  split <;> rename_i hc <;> simp only [Bool.and_eq_true, decide_eq_true_eq] at hc <;> omega

theorem und_lowerCode (n : Nat) : isUnd (lowerCode n) = isUnd n := by
  simp only [lowerCode, isUnd]
  split <;> rename_i hc
  · simp only [Bool.and_eq_true, decide_eq_true_eq] at hc
    have h1 : (n + 32 == 95) = false := by
      simp only [beq_eq_false_iff_ne, ne_eq]
      omega
    have h2 : (n == 95) = false := by
      simp only [beq_eq_false_iff_ne, ne_eq]
      omega
    rw [h1, h2]
  · rfl

theorem und_false_of_digit {n : Nat} (h : isDigitCode n = true) : isUnd n = false := by
  simp only [isDigitCode, Bool.and_eq_true, decide_eq_true_eq] at h
  simp only [isUnd, beq_eq_false_iff_ne, ne_eq]
  omega

/-! Helper facts about `dropWhile`, `reverse` and `stripUnderscores`. -/

theorem mem_dropWhile_of_mem {p : Nat → Bool} {l : PyStr} {x : Nat}
    (hx : x ∈ l) (hp : p x = false) : x ∈ l.dropWhile p := by
  induction l with
  | nil => cases hx
  | cons a t ih =>
    rw [List.dropWhile_cons]
    by_cases ha : p a = true
    · simp only [ha, if_true]
      rcases List.mem_cons.mp hx with rfl | hxt
      · rw [hp] at ha; cases ha
      · exact ih hxt
    · simp only [Bool.not_eq_true] at ha
      simp [ha, hx]

theorem head_dropWhile_false {p : Nat → Bool} {l r : PyStr} {c : Nat}
    (h : l.dropWhile p = c :: r) : p c = false := by
  induction l with
  | nil => simp at h
  | cons a t ih =>
    rw [List.dropWhile_cons] at h
    by_cases ha : p a = true
    · simp only [ha, if_true] at h
      exact ih h
    · simp only [Bool.not_eq_true] at ha
      simp only [ha, Bool.false_eq_true, if_false, List.cons.injEq] at h
      rw [h.1] at ha
      exact ha

theorem dropWhile_cons_false {p : Nat → Bool} {c : Nat} (r : PyStr)
    (h : p c = false) : (c :: r).dropWhile p = c :: r := by
  simp [List.dropWhile_cons, h]

theorem getLast?_dropWhile {p : Nat → Bool} {l : PyStr}
    (h : l.dropWhile p ≠ []) : (l.dropWhile p).getLast? = l.getLast? := by
  induction l with
  | nil => simp at h
  | cons a t ih =>
    by_cases ha : p a = true
    · rw [List.dropWhile_cons, if_pos ha] at h ⊢
      have ht : t ≠ [] := by
        intro he
        rw [he] at h
        simp at h
      rcases t with _ | ⟨b, t2⟩
      · cases ht rfl
      · rw [List.getLast?_cons_cons]
        exact ih h
    · simp only [Bool.not_eq_true] at ha
      simp [List.dropWhile_cons, ha]

theorem mem_strip_of_mem {l : PyStr} {x : Nat} (hx : x ∈ l)
    (hu : isUnd x = false) : x ∈ stripUnderscores l := by
  unfold stripUnderscores
  rw [List.mem_reverse]
  apply mem_dropWhile_of_mem _ hu
  rw [List.mem_reverse]
  exact mem_dropWhile_of_mem hx hu

theorem mem_of_mem_strip {l : PyStr} {x : Nat} (hx : x ∈ stripUnderscores l) :
    x ∈ l := by
  unfold stripUnderscores at hx
  rw [List.mem_reverse] at hx
  have h1 := (List.dropWhile_sublist (l := (l.dropWhile isUnd).reverse) isUnd).mem hx
  rw [List.mem_reverse] at h1
  exact (List.dropWhile_sublist isUnd).mem h1

theorem strip_head_false {l r : PyStr} {c : Nat}
    (h : stripUnderscores l = c :: r) : isUnd c = false := by
  unfold stripUnderscores at h
  generalize hA : l.dropWhile isUnd = a at h
  generalize hB : a.reverse.dropWhile isUnd = b at h
  have hbne : b ≠ [] := by
    intro he
    rw [he] at h
    simp at h
  have hane : a ≠ [] := by
    intro he
    rw [he] at hB
    simp only [List.reverse_nil, List.dropWhile_nil] at hB
    exact hbne hB.symm
  obtain ⟨c0, r0, hc0⟩ : ∃ c0 r0, a = c0 :: r0 := by
    rcases a with _ | ⟨x, xs⟩
    · exact absurd rfl hane
    · exact ⟨x, xs, rfl⟩
  have hc0p : isUnd c0 = false := head_dropWhile_false (hA.trans hc0)
  have h1 : b.getLast? = a.head? := by
    rw [← hB]
    rw [getLast?_dropWhile (by rw [hB]; exact hbne)]
    exact List.getLast?_reverse a
  have h2 : (c :: r).head? = a.head? := by
    rw [← h, List.head?_reverse, h1]
  rw [hc0] at h2
  simp only [List.head?_cons, Option.some.injEq] at h2
  rw [h2]
  exact hc0p

theorem strip_revhead_false {l : PyStr} {c : Nat} {r : PyStr}
    (h : (stripUnderscores l).reverse = c :: r) : isUnd c = false := by
  unfold stripUnderscores at h
  rw [List.reverse_reverse] at h
  exact head_dropWhile_false h

theorem strip_fix {l : PyStr} {c d : Nat} {r s : PyStr}
    (h1 : l = c :: r) (hc : isUnd c = false)
    (h2 : l.reverse = d :: s) (hd : isUnd d = false) :
    stripUnderscores l = l := by
  unfold stripUnderscores
  rw [h1, dropWhile_cons_false r hc, ← h1, h2, dropWhile_cons_false s hd, ← h2,
    List.reverse_reverse]

theorem map_id_on {f : Nat → Nat} {l : PyStr} (h : ∀ x ∈ l, f x = x) :
    l.map f = l := by
  induction l with
  | nil => rfl
  | cons a t ih =>
    simp only [List.map_cons, List.cons.injEq]
    exact ⟨h a (List.mem_cons_self a t), ih fun x hx => h x (List.mem_cons_of_mem a hx)⟩

/-! Structural facts about the sanitizer. -/

theorem word_mem_replaceInvalid {s : PyStr} {x : Nat}
    (hx : x ∈ replaceInvalid s) : isWordCode x = true := by
  unfold replaceInvalid at hx
  rcases List.mem_map.mp hx with ⟨y, _, hy⟩
  by_cases hw : isWordCode y = true
  · rw [if_pos hw] at hy
    rw [← hy]
    exact hw
  · rw [if_neg hw] at hy
    rw [← hy]
    rfl

theorem lowerWord_mem_core {s : PyStr} {x : Nat}
    (hx : x ∈ lowerStr (stripUnderscores (replaceInvalid s))) :
    isLowerWordCode x = true := by
  unfold lowerStr at hx
  rcases List.mem_map.mp hx with ⟨y, hy, hxy⟩
  rw [← hxy]
  exact lowerWord_of_word (word_mem_replaceInvalid (mem_of_mem_strip hy))

theorem core_head_not_und {s : PyStr} {c : Nat} {r : PyStr}
    (h : lowerStr (stripUnderscores (replaceInvalid s)) = c :: r) :
    isUnd c = false := by
  unfold lowerStr at h
  rcases ht : stripUnderscores (replaceInvalid s) with _ | ⟨c0, r0⟩
  · rw [ht] at h
    cases h
  · rw [ht] at h
    simp only [List.map_cons, List.cons.injEq] at h
    rw [← h.1, und_lowerCode]
    exact strip_head_false ht

theorem core_revhead_not_und {s : PyStr} {c : Nat} {r : PyStr}
    (h : (lowerStr (stripUnderscores (replaceInvalid s))).reverse = c :: r) :
    isUnd c = false := by
  unfold lowerStr at h
  rw [← List.map_reverse] at h
  rcases ht : (stripUnderscores (replaceInvalid s)).reverse with _ | ⟨c0, r0⟩
  · rw [ht] at h
    cases h
  · rw [ht] at h
    simp only [List.map_cons, List.cons.injEq] at h
    rw [← h.1, und_lowerCode]
    exact strip_revhead_false ht

theorem core_fixes_clean {m : PyStr}
    (hall : ∀ x ∈ m, isLowerWordCode x = true)
    (hhead : ∀ c r, m = c :: r → isUnd c = false)
    (hlast : ∀ c r, m.reverse = c :: r → isUnd c = false) :
    lowerStr (stripUnderscores (replaceInvalid m)) = m := by
  have hrep : replaceInvalid m = m :=
    map_id_on fun x hx => if_pos (word_of_lowerWord (hall x hx))
  rw [hrep]
  have hstrip : stripUnderscores m = m := by
    rcases hm : m with _ | ⟨c, r⟩
    · rfl
    · rcases hrev : (c :: r).reverse with _ | ⟨d, s⟩
      · have : (c :: r).reverse ≠ [] := by simp
        exact absurd hrev this
      · exact strip_fix rfl (hhead c r hm) hrev (hlast d s (hm ▸ hrev))
  rw [hstrip]
  exact map_id_on fun x hx => lowerCode_fix (hall x hx)

/-- Per-name totality: a name containing at least one ASCII alphanumeric
code point sanitizes without raising, to a valid identifier. -/
theorem sanitizeName_total_of_alnum {s : PyStr} (h : s.any isAlnumCode = true) :
    ∃ m, sanitizeName s = some m ∧ validIdent m = true := by
  rcases List.any_eq_true.mp h with ⟨x, hxs, hxa⟩
  have hxw : isWordCode x = true := word_of_alnum hxa
  have hxu : isUnd x = false := und_false_of_alnum hxa
  have hx1 : x ∈ replaceInvalid s :=
    List.mem_map.mpr ⟨x, hxs, if_pos hxw⟩
  have hx2 : x ∈ stripUnderscores (replaceInvalid s) := mem_strip_of_mem hx1 hxu
  have hne : lowerStr (stripUnderscores (replaceInvalid s)) ≠ [] := by
    unfold lowerStr
    intro he
    rw [List.map_eq_nil_iff] at he
    rw [he] at hx2
    cases hx2
  rcases hr : lowerStr (stripUnderscores (replaceInvalid s)) with _ | ⟨c, r⟩
  · exact absurd hr hne
  have hall : ∀ y ∈ c :: r, isLowerWordCode y = true := by
    intro y hy
    exact lowerWord_mem_core (hr ▸ hy)
  refine ⟨if isDigitCode c then 95 :: c :: r else c :: r, ?_, ?_⟩
  · unfold sanitizeName
    rw [hr]
  · by_cases hd : isDigitCode c = true
    · rw [if_pos hd]
      unfold validIdent
      simp only [Bool.and_eq_true, Bool.not_eq_true]
      constructor
      · rfl
      · rw [List.all_eq_true]
        intro y hy
        rcases List.mem_cons.mp hy with rfl | hy2
        · rfl
        · exact hall y hy2
    · rw [if_neg hd]
      unfold validIdent
      simp only [Bool.and_eq_true, Bool.not_eq_true]
      constructor
      · simpa using hd
      · rw [List.all_eq_true]
        exact hall

/-- Per-name idempotence: a name the sanitizer accepts is a fixed point of
a second sanitization. -/
theorem sanitizeName_idem {s m : PyStr} (h : sanitizeName s = some m) :
    sanitizeName m = some m := by
  unfold sanitizeName at h
  rcases hr : lowerStr (stripUnderscores (replaceInvalid s)) with _ | ⟨c, r⟩
  · rw [hr] at h
    cases h
  rw [hr] at h
  simp only [Option.some.injEq] at h
  have hall : ∀ y ∈ c :: r, isLowerWordCode y = true := by
    intro y hy
    exact lowerWord_mem_core (hr ▸ hy)
  have hchead : isUnd c = false := core_head_not_und hr
  have hclast : ∀ d s2, (c :: r).reverse = d :: s2 → isUnd d = false := by
    intro d s2 hrev
    exact core_revhead_not_und (by rw [hr]; exact hrev)
  by_cases hd : isDigitCode c = true
  · rw [if_pos hd] at h
    rw [← h]
    unfold sanitizeName
    have hrep : replaceInvalid (95 :: c :: r) = 95 :: c :: r := by
      unfold replaceInvalid
      simp only [List.map_cons, List.cons.injEq]
      refine ⟨rfl, ?_, ?_⟩
      · exact if_pos (word_of_lowerWord (hall c (List.mem_cons_self c r)))
      · have := map_id_on (f := fun n => if isWordCode n then n else 95) (l := r)
          fun x hx => if_pos (word_of_lowerWord (hall x (List.mem_cons_of_mem c hx)))
        simpa [replaceInvalid] using this
    rw [hrep]
    have hstrip : stripUnderscores (95 :: c :: r) = c :: r := by
      have h1 : List.dropWhile isUnd (95 :: c :: r) = c :: r := by
        rw [List.dropWhile_cons, if_pos (show isUnd 95 = true from rfl)]
        exact dropWhile_cons_false r hchead
      have h2 : List.dropWhile isUnd (c :: r).reverse = (c :: r).reverse := by
        rcases hrev : (c :: r).reverse with _ | ⟨d, s2⟩
        · rfl
        · exact dropWhile_cons_false s2 (hclast d s2 hrev)
      unfold stripUnderscores
      rw [h1, h2, List.reverse_reverse]
    rw [hstrip]
    have hlow : lowerStr (c :: r) = c :: r :=
      map_id_on fun x hx => lowerCode_fix (hall x hx)
    rw [hlow]
    simp [hd]
  · rw [if_neg hd] at h
    rw [← h]
    unfold sanitizeName
    rw [core_fixes_clean hall (fun c2 r2 he => by rw [List.cons.injEq] at he; rw [← he.1]; exact hchead) hclast]
    simp [hd]

/-- Batch-level totality of the sanitizer on names holding at least one
alphanumeric code point. -/
theorem clean_total_aux :
    ∀ cols : List PyStr, (∀ s ∈ cols, s.any isAlnumCode = true) →
      ∃ out, clean_column_names cols = some out ∧ ∀ m ∈ out, validIdent m = true := by
  intro cols
  induction cols with
  | nil => exact fun _ => ⟨[], rfl, fun m hm => absurd hm (List.not_mem_nil m)⟩
  | cons s rest ih =>
    intro h
    rcases sanitizeName_total_of_alnum (h s (List.mem_cons_self s rest)) with ⟨m, hm, hmv⟩
    rcases ih (fun x hx => h x (List.mem_cons_of_mem s hx)) with ⟨ms, hms, hmsv⟩
    refine ⟨m :: ms, ?_, ?_⟩
    · unfold clean_column_names
      rw [hm, hms]
    · intro y hy
      rcases List.mem_cons.mp hy with rfl | hy2
      · exact hmv
      · exact hmsv y hy2

/-! Claim theorems. -/

/-- C1: the claim says the timestamps computed by
`get_incremental_timestamps` are passed through `extract_all` into the
per-resource fetch requests as a server-side lower bound.  The code cannot
do this: `extract_all` is defined without a timestamp parameter, so the
call `extract_all(last_updated_timestamps=...)` in
`ShopifyBigQueryPipeline.run_extraction` raises `TypeError` (making every
extraction phase return `(False, [])`), and no per-resource fetch request
carries any key other than `limit` — in particular no `updated_at_min` or
`since` lower bound. -/
theorem extract_all_never_receives_timestamps :
    callExtractAll ["last_updated_timestamps"] = Except.error PyError.typeError
    ∧ (∀ r, (extract_params r).map Prod.fst = ["limit"])
    ∧ run_extraction true (fun _ => none) (fun _ => "")
        (fun _ => MaxQueryResult.nullMax) (fun _ => ⟨[], 0⟩) = (false, []) := by
  refine ⟨rfl, ?_, rfl⟩
  intro r
  cases r <;> rfl

/-- C2 counterexample: `clean_column_names` is not total.  On the column
name `"@#"` (code points 64, 35) — a name with only invalid characters —
sanitization yields the empty string and the leading-digit check `col[0]`
raises `IndexError` (modelled as `none`). -/
theorem clean_column_names_raises_on_symbol_only_name :
    clean_column_names [[64, 35]] = none := rfl

/-- C2 (amended): `clean_column_names` is a pure total function on every
batch whose names each contain at least one ASCII alphanumeric character
(this includes pure-digit names), and every such name resolves to a
non-empty valid identifier; a name with no alphanumeric character (such as
the empty string or a name of only invalid characters and underscores)
sanitizes to the empty string and raises `IndexError` instead. -/
theorem clean_column_names_total_on_alnum (cols : List PyStr)
    (h : ∀ s ∈ cols, s.any isAlnumCode = true) :
    ∃ out, clean_column_names cols = some out ∧ ∀ m ∈ out, validIdent m = true :=
  clean_total_aux cols h

/-- Witness for C2 at the concrete batch `["Order ID", "1a"]` (code
points). -/
theorem clean_column_names_total_on_alnum_witness :
    (∀ s ∈ [[79, 114, 100, 101, 114, 32, 73, 68], [49, 97]],
        List.any s isAlnumCode = true)
    ∧ ∃ out, clean_column_names [[79, 114, 100, 101, 114, 32, 73, 68], [49, 97]] = some out
        ∧ ∀ m ∈ out, validIdent m = true :=
  ⟨by decide,
   clean_column_names_total_on_alnum [[79, 114, 100, 101, 114, 32, 73, 68], [49, 97]]
     (by decide)⟩

/-- C3: `clean_column_names` is idempotent wherever it is defined: a batch
it accepts is mapped to a batch it fixes. -/
theorem clean_column_names_idem :
    ∀ (cols out : List PyStr), clean_column_names cols = some out →
      clean_column_names out = some out := by
  intro cols
  induction cols with
  | nil =>
    intro out h
    unfold clean_column_names at h
    simp only [Option.some.injEq] at h
    rw [← h]
    rfl
  | cons s rest ih =>
    intro out h
    unfold clean_column_names at h
    rcases hs : sanitizeName s with _ | m
    · rw [hs] at h
      cases h
    rcases hr : clean_column_names rest with _ | ms
    · rw [hs, hr] at h
      cases h
    rw [hs, hr] at h
    simp only [Option.some.injEq] at h
    rw [← h]
    unfold clean_column_names
    rw [sanitizeName_idem hs, ih ms hr]

/-- Witness for C3 at the concrete batch `["A_B", "1x"]` (code points),
whose sanitization is `["a_b", "_1x"]`. -/
theorem clean_column_names_idem_witness :
    clean_column_names [[65, 95, 66], [49, 120]] = some [[97, 95, 98], [95, 49, 120]]
    ∧ clean_column_names [[97, 95, 98], [95, 49, 120]] = some [[97, 95, 98], [95, 49, 120]] :=
  ⟨by decide, clean_column_names_idem [[65, 95, 66], [49, 120]] [[97, 95, 98], [95, 49, 120]] (by decide)⟩

/-- C4 counterexample: a zero-row batch does skip the load job, but
`load_dataframe` returns `False`, and that `False` makes the loading phase
of the run fail — the opposite of the claimed no-op success.  Concretely,
with a staging directory holding one `orders` csv that reads back empty,
no job is invoked yet `run_loading` reports failure. -/
theorem empty_batch_load_returns_false :
    (load_dataframe ⟨[[97]], 0⟩ true).invoked = false
    ∧ (load_dataframe ⟨[[97]], 0⟩ true).success = false
    ∧ run_loading none true emptyOrdersEnv = false := ⟨rfl, rfl, rfl⟩

/-- C4 (amended): loading an empty batch performs no load-job invocation,
but it signals failure, not success: `load_dataframe` returns `False` for
it, and through `load_all_datasets` and `run_loading` that `False` makes
the loading phase of the run report failure. -/
theorem empty_batch_skipped_counts_as_failure (env : LoadEnv) (r : Resource)
    (df : DF) (jobOk : Bool) (h1 : env r = some (some df, jobOk))
    (h2 : df.isEmptyDF = true) :
    load_dataframe df jobOk = ⟨false, false⟩
    ∧ run_loading none true env = false := by
  have hld : load_dataframe df jobOk = ⟨false, false⟩ := by
    unfold load_dataframe
    rw [if_pos h2]
  refine ⟨hld, ?_⟩
  have hsucc : (load_from_csv true (some df) jobOk).success = false := by
    simp [load_from_csv, hld]
  have hmem : (r, false) ∈ load_all_datasets env := by
    unfold load_all_datasets
    apply List.mem_filterMap.mpr
    refine ⟨r, by cases r <;> simp [TABLE_MAPPING], ?_⟩
    rw [h1]
    simp [hsucc]
  show (load_all_datasets env).all (fun x => x.2) = false
  cases hb : (load_all_datasets env).all (fun x => x.2) with
  | false => rfl
  | true =>
    have := List.all_eq_true.mp hb _ hmem
    simp at this

/-- Witness for C4 at the concrete staging directory `emptyOrdersEnv`. -/
theorem empty_batch_skipped_counts_as_failure_witness :
    load_dataframe ⟨[[97]], 0⟩ true = ⟨false, false⟩
    ∧ run_loading none true emptyOrdersEnv = false :=
  empty_batch_skipped_counts_as_failure emptyOrdersEnv Resource.orders
    ⟨[[97]], 0⟩ true rfl rfl

/-- C5: `get_last_updated_timestamp` fails soft: it returns no marker when
the table does not exist, when the `MAX` query returns a null maximum, and
on any query error, rather than raising — so a progress lookup never
aborts a run. -/
theorem get_last_updated_timestamp_fails_soft (fromiso : String → Option Int)
    (isoStr : Int → String) :
    get_last_updated_timestamp fromiso isoStr MaxQueryResult.tableNotFound = none
    ∧ get_last_updated_timestamp fromiso isoStr MaxQueryResult.queryError = none
    ∧ get_last_updated_timestamp fromiso isoStr MaxQueryResult.nullMax = none :=
  ⟨rfl, rfl, rfl⟩

/-- C6: for a csv file that exists, `load_from_csv` leaves the file in
place exactly when the load did not succeed: the artifact is deleted
immediately after a successful load and retained on failure, so the
presence of the artifact implies its load has not succeeded. -/
theorem artifact_presence_tracks_unloaded (readResult : Option DF) (jobOk : Bool) :
    (load_from_csv true readResult jobOk).fileRemains
      = !(load_from_csv true readResult jobOk).success := by
  rcases readResult with _ | df
  · rfl
  · unfold load_from_csv
    by_cases hs : (load_dataframe df jobOk).success = true <;> simp [hs]

/-- C7: the loading loop attempts every resource that has a staged csv,
regardless of the outcomes at the other resources (a failure never blocks the
remaining attempts), and the loading phase of the run reports success
exactly when the conjunction of all attempted loads holds. -/
theorem load_results_independent_and_conjunctive (env : LoadEnv) :
    (load_all_datasets env).map Prod.fst
        = TABLE_MAPPING.filter (fun r => (env r).isSome)
    ∧ run_loading none true env = (load_all_datasets env).all (fun x => x.2) := by
  constructor
  · unfold load_all_datasets TABLE_MAPPING
    cases h1 : env .orders <;> cases h2 : env .customers <;> cases h3 : env .products <;>
      simp [h1, h2, h3]
  · rfl

/-- C8: a batch with zero rows is not written to a staged csv by
`save_to_csv`, and the loader then skips that resource entirely: it does
not appear among the attempted loads of `load_all_datasets` run on the
staging directory the extraction produced. -/
theorem empty_batch_not_staged_not_loaded (datasets : Resource → DF)
    (jobOk : Resource → Bool) (r : Resource)
    (h : (datasets r).isEmptyDF = true) :
    r ∉ save_to_csv datasets
    ∧ r ∉ (load_all_datasets (stagedEnv datasets jobOk)).map Prod.fst := by
  have hns : r ∉ save_to_csv datasets := by
    intro hmem
    unfold save_to_csv at hmem
    have h2 := (List.mem_filter.mp hmem).2
    rw [h] at h2
    simp at h2
  refine ⟨hns, ?_⟩
  intro hmem
  rcases List.mem_map.mp hmem with ⟨⟨r2, b⟩, hin, hfst⟩
  have hr2 : r2 = r := hfst
  subst hr2
  unfold load_all_datasets at hin
  rcases List.mem_filterMap.mp hin with ⟨r3, _, hr3⟩
  cases henv : stagedEnv datasets jobOk r3 with
  | none =>
    rw [henv] at hr3
    cases hr3
  | some v =>
    rw [henv] at hr3
    simp only [Option.some.injEq, Prod.mk.injEq] at hr3
    rw [hr3.1] at henv
    unfold stagedEnv at henv
    rw [if_neg hns] at henv
    cases henv

/-- Witness for C8: the `customers` batch is empty, the others are not. -/
theorem empty_batch_not_staged_not_loaded_witness :
    Resource.customers ∉ save_to_csv
        (fun r => match r with
          | .customers => ⟨[[97]], 0⟩
          | _ => ⟨[[97]], 5⟩)
    ∧ Resource.customers ∉ (load_all_datasets (stagedEnv
        (fun r => match r with
          | .customers => ⟨[[97]], 0⟩
          | _ => ⟨[[97]], 5⟩) (fun _ => true))).map Prod.fst :=
  empty_batch_not_staged_not_loaded
    (fun r => match r with
      | .customers => ⟨[[97]], 0⟩
      | _ => ⟨[[97]], 5⟩) (fun _ => true) Resource.customers rfl

/-- C9 counterexample: when the progress store is unreachable at loader
construction, `BigQueryLoader.__init__` re-raises, the broad `except` in
`run_extraction` returns `(False, [])`, and the whole pipeline run fails —
it does not degrade to an empty progress map with full extraction. -/
theorem loader_init_failure_fails_run :
    run_extraction false (fun _ => none) (fun _ => "")
        (fun _ => MaxQueryResult.queryError) (fun _ => ⟨[], 0⟩) = (false, [])
    ∧ run_full_pipeline false (fun _ => none) (fun _ => "")
        (fun _ => MaxQueryResult.queryError) (fun _ => ⟨[], 0⟩)
        (fun _ => none) = false := ⟨rfl, rfl⟩

/-- C9 (amended): only per-query progress-store failures degrade to an
empty progress map — when every per-resource lookup errors,
`get_incremental_timestamps` returns the empty map; but a progress store
unreachable at warehouse connection (loader initialization) makes
`run_extraction` return failure rather than proceeding. -/
theorem progress_failure_scope (fromiso : String → Option Int)
    (isoStr : Int → String) (queryRes : Resource → MaxQueryResult)
    (h : ∀ r, queryRes r = MaxQueryResult.queryError) :
    get_incremental_timestamps (fun r =>
        get_last_updated_timestamp fromiso isoStr (queryRes r)) = []
    ∧ ∀ fetched, run_extraction false fromiso isoStr queryRes fetched = (false, []) := by
  constructor
  · simp [get_incremental_timestamps, TABLE_MAPPING, h, get_last_updated_timestamp]
  · intro fetched
    rfl

/-- Witness for C9 at the constant `queryError` lookup. -/
theorem progress_failure_scope_witness :
    get_incremental_timestamps (fun r =>
        get_last_updated_timestamp (fun _ => none) (fun _ => "")
          ((fun _ => MaxQueryResult.queryError) r)) = []
    ∧ ∀ fetched, run_extraction false (fun _ => none) (fun _ => "")
        (fun _ => MaxQueryResult.queryError) fetched = (false, []) :=
  progress_failure_scope (fun _ => none) (fun _ => "")
    (fun _ => MaxQueryResult.queryError) (fun _ => rfl)

/-- C10: when the stored maximum timestamp is a string that
`datetime.fromisoformat` cannot parse, `get_last_updated_timestamp`
returns that string unchanged, without the +1-second offset. -/
theorem unparseable_timestamp_unchanged (fromiso : String → Option Int)
    (isoStr : Int → String) (s : String) (h : fromiso s = none) :
    get_last_updated_timestamp fromiso isoStr (MaxQueryResult.strVal s) = some s := by
  simp only [get_last_updated_timestamp]
  rw [h]

/-- Witness for C10 at a parser rejecting everything and the string
`"not-a-timestamp"`. -/
theorem unparseable_timestamp_unchanged_witness :
    get_last_updated_timestamp (fun _ => none) (fun _ => "")
        (MaxQueryResult.strVal "not-a-timestamp") = some "not-a-timestamp" :=
  unparseable_timestamp_unchanged (fun _ => none) (fun _ => "")
    "not-a-timestamp" rfl

end ShopifyBQ
